import Mathlib

/-!
Shallow embedding of the hackson backend (FastAPI + Neo4j person-graph).

The embedding follows the source files under backend/app:
  api/graph.py     -- network / nodes / edges / search / connections endpoints
  api/persons.py   -- person CRUD endpoints
  api/auth.py      -- oauth2 bearer scheme and register/login endpoints
  services/auth_service.py -- token verification
  services/user_service.py -- user creation and lookup

Cypher WHERE clauses are modelled with Kleene three-valued logic (null
propagates through IN and CONTAINS; a row passes WHERE only when the
expression evaluates to true), and operator precedence is modelled as in
Cypher: AND binds tighter than OR.
-/

namespace Hackson

/-- Three-valued Cypher truth value: some true / some false / none (null). -/
abbrev Cy := Option Bool

/-- Cypher OR (Kleene). -/
def cyOr (a b : Cy) : Cy :=
  match a, b with
  | some true, _ => some true
  | _, some true => some true
  | some false, some false => some false
  | _, _ => none

/-- Cypher AND (Kleene). -/
def cyAnd (a b : Cy) : Cy :=
  match a, b with
  | some false, _ => some false
  | _, some false => some false
  | some true, some true => some true
  | _, _ => none

/-- Cypher IN over a list of strings; null operand yields null. -/
def cyIn (x : Option String) (l : List String) : Cy :=
  x.map (fun s => l.contains s)

/-- Cypher IS NULL; always two-valued. -/
def cyIsNull (x : Option String) : Cy :=
  some x.isNone

/-- A WHERE clause keeps a row only when the expression is true. -/
def cyTrue (t : Cy) : Bool :=
  t = some true

/-- Properties of a Person node as stored in Neo4j.  Every property may be
absent; property "id" is the application-level identifier (distinct from
the driver-internal element id). -/
structure Person where
  pid : Option String
  name : Option String
  birth_year : Option Int
  death_year : Option Int
  occupation : Option (List String)
  specialty : Option (List String)
  hobby : Option (List String)
  achievement : Option String
  female_experience : Option (List String)
  ptype : Option String
  frequency : Option Int
  degree : Option Int
  description : Option String
  human_readable_id : Option String
  knowledge_source : Option String
  source_type : Option String
  created_by : Option String
  is_verified : Option Bool
  created_at : Option String
  deriving DecidableEq, Repr

/-- A Person record with every property absent, used to build concrete
store contents compactly. -/
def Person.empty : Person :=
  ⟨none, none, none, none, none, none, none, none, none, none,
   none, none, none, none, none, none, none, none, none⟩

/-- A relationship: the Neo4j relationship type label (always present,
used by typed MATCH patterns) plus its properties, each possibly absent.
Property "type" is separate from the label, matching the Python driver
where rel.get("type") reads a property while the label is rel.type. -/
structure Rel where
  label : String
  rid : Option String
  rtype : Option String
  description : Option String
  strength : Option Int
  source_type : Option String
  created_by : Option String
  created_at : Option String
  deriving DecidableEq, Repr

/-- A Rel with the given label and no properties. -/
def Rel.onlyLabel (l : String) : Rel :=
  ⟨l, none, none, none, none, none, none, none⟩

/-- A directed edge of the graph store: source node, target node,
relationship. -/
structure Edge where
  src : Person
  tgt : Person
  rel : Rel
  deriving DecidableEq, Repr

/-- The graph store: Person nodes and directed relationships between
them.  Lists model Neo4j result order (unordered queries return rows in
store order here). -/
structure GraphStore where
  nodes : List Person
  edges : List Edge
  deriving DecidableEq, Repr

/-- The allow-list used by anonymous visibility filters in graph.py. -/
def pubTypes : List String := ["system", "public"]

/-- WHERE clause of the anonymous nodes query in get_graph_network and
get_optimized_graph_network:
p.source_type IN ['system','public'] OR p.source_type IS NULL. -/
def anonNodeWhere (p : Person) : Bool :=
  cyTrue (cyOr (cyIn p.source_type pubTypes) (cyIsNull p.source_type))

/-- WHERE clause of the anonymous edges query in get_graph_network and
get_optimized_graph_network, with Cypher precedence (AND binds tighter
than OR).  The source text is
  a.source_type IN [...] OR a.source_type IS NULL
  AND b.source_type IN [...] OR b.source_type IS NULL
  AND (r.source_type IN [...] OR r.source_type IS NULL)
which parses as X OR (Y AND Z) OR (W AND V). -/
def anonEdgeWhere (e : Edge) : Bool :=
  cyTrue
    (cyOr
      (cyOr (cyIn e.src.source_type pubTypes)
        (cyAnd (cyIsNull e.src.source_type) (cyIn e.tgt.source_type pubTypes)))
      (cyAnd (cyIsNull e.tgt.source_type)
        (cyOr (cyIn e.rel.source_type pubTypes) (cyIsNull e.rel.source_type))))

/-- SKIP / LIMIT windowing applied after the WHERE filter. -/
def window (skip limit : Nat) (l : List α) : List α :=
  (l.drop skip).take limit

/-- Person rows returned by the nodes query of GET /graph/network and
GET /graph/network/optimized: anonymous callers get the filtered store,
authenticated callers the whole store, then SKIP/LIMIT. -/
def networkNodeRows (authed : Bool) (store : GraphStore)
    (skipNodes limitNodes : Nat) : List Person :=
  if authed then
    window skipNodes limitNodes store.nodes
  else
    window skipNodes limitNodes (store.nodes.filter anonNodeWhere)

/-- Edge rows returned by the edges query of GET /graph/network and
GET /graph/network/optimized. -/
def networkEdgeRows (authed : Bool) (store : GraphStore)
    (skipEdges limitEdges : Nat) : List Edge :=
  if authed then
    window skipEdges limitEdges store.edges
  else
    window skipEdges limitEdges (store.edges.filter anonEdgeWhere)

/-- The visibility predicate the spec assigns to anonymous callers:
source_type is system or public, or absent. -/
def specAnonVisible (st : Option String) : Prop :=
  st = some "system" ∨ st = some "public" ∨ st = none

instance (st : Option String) : Decidable (specAnonVisible st) := by
  unfold specAnonVisible; infer_instance

/-- HTTP-level error as raised through fastapi HTTPException: status code
plus detail string. -/
structure ApiError where
  code : Nat
  detail : String
  deriving DecidableEq, Repr

def errNotAuthenticated : ApiError := ⟨401, "Not authenticated"⟩
def errBadCreds : ApiError := ⟨401, "Could not validate credentials"⟩
def errUserNotFound : ApiError := ⟨404, "User not found"⟩
def errInactive : ApiError := ⟨400, "Inactive user"⟩
def errPersonNotFound : ApiError := ⟨404, "Person not found"⟩
def errNoFields : ApiError := ⟨400, "No fields to update"⟩

/-- The 500 raised by get_graph_nodes when building a GraphNode from a
record fails pydantic validation (GraphNode.id and GraphNode.label are
required str fields, so a null id or name raises); the detail string
carries the library message and is abbreviated here. -/
def errNodesFailure : ApiError := ⟨500, "Failed to retrieve graph nodes"⟩

/-- The properties dict built for every GraphNode in graph.py (both in
get_graph_nodes and get_graph_network); is_verified uses get with
default False, every other property is passed through. -/
structure NodeProps where
  name : Option String
  birth_year : Option Int
  death_year : Option Int
  occupation : Option (List String)
  specialty : Option (List String)
  hobby : Option (List String)
  achievement : Option String
  female_experience : Option (List String)
  ptype : Option String
  frequency : Option Int
  degree : Option Int
  description : Option String
  human_readable_id : Option String
  knowledge_source : Option String
  source_type : Option String
  created_by : Option String
  is_verified : Bool
  created_at : Option String
  deriving DecidableEq, Repr

/-- person_data.get(...) for each key of the properties dict. -/
def personProps (p : Person) : NodeProps :=
  ⟨p.name, p.birth_year, p.death_year, p.occupation, p.specialty, p.hobby,
   p.achievement, p.female_experience, p.ptype, p.frequency, p.degree,
   p.description, p.human_readable_id, p.knowledge_source, p.source_type,
   p.created_by, p.is_verified.getD false, p.created_at⟩

/-- The pydantic GraphNode model: id, label and type are required str
fields, properties is the dict above. -/
structure GraphNodeR where
  gid : String
  glabel : String
  gtype : String
  props : NodeProps
  deriving DecidableEq, Repr

/-- The pydantic GraphEdge model; its properties dict fills defaults:
type RELATED_TO, strength 1, source_type user_created. -/
structure GraphEdgeR where
  gid : String
  source : String
  target : String
  glabel : String
  gtype : String
  ptype : String
  description : Option String
  strength : Int
  source_type : String
  created_by : Option String
  created_at : Option String
  deriving DecidableEq, Repr

/-- Node construction in get_graph_nodes: GraphNode(id=get("id"),
label=get("name"), ...).  A null id or label fails pydantic validation,
which the handler's except-clause turns into a 500. -/
def shapeNodeStrict (p : Person) : Except ApiError GraphNodeR :=
  match p.pid, p.name with
  | some i, some n => .ok ⟨i, n, "person", personProps p⟩
  | _, _ => .error errNodesFailure

/-- The construction loop of get_graph_nodes: nodes are built in order
and the first validation failure aborts the request. -/
def shapeNodesStrict : List Person → Except ApiError (List GraphNodeR)
  | [] => .ok []
  | p :: rest =>
    match shapeNodeStrict p with
    | .error e => .error e
    | .ok n =>
      match shapeNodesStrict rest with
      | .error e => .error e
      | .ok l => .ok (n :: l)

/-- GET /graph/nodes (strict auth assumed already passed): unfiltered
query with SKIP/LIMIT, then per-record GraphNode construction. -/
def get_graph_nodes (store : GraphStore) (skip limit : Nat) :
    Except ApiError (List GraphNodeR) :=
  shapeNodesStrict (window skip limit store.nodes)

/-- Python truthiness of an optional string (None and the empty string
are falsy). -/
def pyTruthy : Option String → Bool
  | none => false
  | some s => s ≠ ""

/-- Python name.lower().replace(space, dash): since the replaced
pattern is a single character this is a per-character map (lowercase
every character, turn each space into a dash). -/
def pyLowerDash (s : String) : String :=
  String.mk (s.data.map (fun c => if c = ' ' then '-' else c.toLower))

/-- Fallback node id synthesis in get_graph_network for a record with a
null id: name.lower().replace(space, dash) plus a uuid fragment when the
name is truthy, otherwise node-i plus a uuid fragment.  The uuid call is
modelled by the fresh string passed in. -/
def networkNodeId (i : Nat) (fresh : String) (p : Person) : String :=
  match p.pid with
  | some nodeId => nodeId
  | none =>
    match p.name with
    | some n =>
        if n ≠ "" then pyLowerDash n ++ "-" ++ fresh
        else "node-" ++ toString i ++ "-" ++ fresh
    | none => "node-" ++ toString i ++ "-" ++ fresh

/-- Node shaping in get_graph_network: label falls back to the unknown
marker, id is synthesized when null. -/
def shapeNetworkNode (i : Nat) (fresh : String) (p : Person) : GraphNodeR :=
  ⟨networkNodeId i fresh p, p.name.getD "未知", "person", personProps p⟩

/-- The enumerate loop over node records in get_graph_network. -/
def shapeNetworkNodes (freshN : Nat → String) : Nat → List Person → List GraphNodeR
  | _, [] => []
  | i, p :: rest => shapeNetworkNode i (freshN i) p :: shapeNetworkNodes freshN (i + 1) rest

/-- Edge shaping in get_graph_network / get_graph_edges: id, source and
target are synthesized from uuid fragments when null, and the properties
dict fills defaults RELATED_TO / 1 / user_created. -/
def shapeNetworkEdge (i : Nat) (fId fSrc fTgt : String) (e : Edge) : GraphEdgeR :=
  { gid := e.rel.rid.getD fId
    source := e.src.pid.getD ("source-" ++ toString i ++ "-" ++ fSrc)
    target := e.tgt.pid.getD ("target-" ++ toString i ++ "-" ++ fTgt)
    glabel := e.rel.rtype.getD "RELATED_TO"
    gtype := "relates_to"
    ptype := e.rel.rtype.getD "RELATED_TO"
    description := e.rel.description
    strength := e.rel.strength.getD 1
    source_type := e.rel.source_type.getD "user_created"
    created_by := e.rel.created_by
    created_at := e.rel.created_at }

/-- The enumerate loop over edge records in get_graph_network. -/
def shapeNetworkEdges (fId fSrc fTgt : Nat → String) : Nat → List Edge → List GraphEdgeR
  | _, [] => []
  | i, e :: rest =>
      shapeNetworkEdge i (fId i) (fSrc i) (fTgt i) e ::
        shapeNetworkEdges fId fSrc fTgt (i + 1) rest

/-- Rows of GET /graph/edges: untyped directed match, no visibility
filter (the endpoint requires strict auth), SKIP/LIMIT windowing. -/
def get_graph_edges_rows (store : GraphStore) (skip limit : Nat) : List Edge :=
  window skip limit store.edges

/-- Decoded JWT payload carrying the subject email. -/
structure TokenData where
  email : String
  deriving DecidableEq, Repr

/-- Outcomes of jose jwt.decode on a presented bearer token: a JWTError
(bad signature or other malformation), an ExpiredSignatureError, a valid
payload without a sub claim, or a valid payload with subject email. -/
inductive Token
  | malformed
  | expired
  | noSub
  | subject (email : String)
  deriving DecidableEq, Repr

/-- verify_token in auth_service.py: JWTError and expiry yield None, a
payload without sub yields None, otherwise TokenData(email). -/
def verify_token : Token → Option TokenData
  | .subject e => some ⟨e⟩
  | _ => none

/-- The credential state of an inbound request: no Authorization header,
or a bearer token. -/
inductive Cred
  | missing
  | bearer (t : Token)
  deriving DecidableEq, Repr

/-- A row of the relational users table.  The User model file itself is
not under src; its two graph-link columns are named as used by the
handlers (neo4j_person_id, is_in_graph) and both code paths that matter
to the claims assign them explicitly before returning. -/
structure UserRec where
  email : String
  hashed_password : String
  full_name : Option String
  is_active : Bool
  neo4j_person_id : Option String
  is_in_graph : Bool
  deriving DecidableEq, Repr

abbrev UserDB := List UserRec

/-- get_user_by_email in user_service.py: lookup by unique email. -/
def get_user_by_email (db : UserDB) (email : String) : Option UserRec :=
  db.find? (fun u => u.email == email)

/-- The oauth2_scheme dependency, fastapi's OAuth2PasswordBearer with
only tokenUrl given, hence auto_error left at its default True: a
request without a bearer Authorization header makes the dependency
itself raise HTTPException 401 Not authenticated; otherwise it yields
the raw token. -/
def oauth2_scheme : Cred → Except ApiError Token
  | .missing => .error errNotAuthenticated
  | .bearer t => .ok t

/-- get_current_user (identical in graph.py, persons.py and users.py):
strict mode, every credential failure is a hard error. -/
def get_current_user (cred : Cred) (db : UserDB) : Except ApiError UserRec := do
  let token ← oauth2_scheme cred
  match verify_token token with
  | none => .error errBadCreds
  | some tokenData =>
    match get_user_by_email db tokenData.email with
    | none => .error errUserNotFound
    | some user =>
      if user.is_active then .ok user else .error errInactive

/-- get_current_user_or_none in graph.py: the oauth2_scheme dependency
is resolved by the framework before the function body runs, so its 401
on a missing header propagates; inside the body the try/except turns
every failure into an anonymous None classification. -/
def get_current_user_or_none (cred : Cred) (db : UserDB) :
    Except ApiError (Option UserRec) := do
  let token ← oauth2_scheme cred
  match verify_token token with
  | none => .ok none
  | some tokenData =>
    match get_user_by_email db tokenData.email with
    | none => .ok none
    | some user =>
      if user.is_active then .ok (some user) else .ok none

/-- The full response of GET /graph/network. -/
structure GraphDataR where
  gnodes : List GraphNodeR
  gedges : List GraphEdgeR
  deriving DecidableEq, Repr

/-- GET /graph/network end to end: optional auth, then the query pair
selected on the caller classification, then shaping. -/
def get_graph_network (cred : Cred) (db : UserDB) (store : GraphStore)
    (skipNodes limitNodes skipEdges limitEdges : Nat)
    (freshN fId fSrc fTgt : Nat → String) : Except ApiError GraphDataR := do
  let user? ← get_current_user_or_none cred db
  let authed := user?.isSome
  .ok ⟨shapeNetworkNodes freshN 0 (networkNodeRows authed store skipNodes limitNodes),
       shapeNetworkEdges fId fSrc fTgt 0 (networkEdgeRows authed store skipEdges limitEdges)⟩

/-- Lowercasing on the character list of a string; identical to
String.toLower (which maps Char.toLower over the characters) but stated
on lists so that concrete instances compute. -/
def strLower (s : String) : List Char :=
  s.data.map Char.toLower

/-- Substring test on character lists (Cypher CONTAINS): the needle is
a prefix of some suffix of the haystack. -/
def containsSub (needle : List Char) : List Char → Bool
  | [] => needle.isPrefixOf []
  | c :: rest => needle.isPrefixOf (c :: rest) || containsSub needle rest

/-- Case-insensitive Cypher CONTAINS as used by the search query:
toLower(field) CONTAINS toLower(query), null field propagating to null. -/
def cyContainsLower (field : Option String) (q : String) : Cy :=
  field.map (fun s => containsSub (strLower q) (strLower s))

/-- Cypher list indexing at 0: null on a null or empty list. -/
def head0 (l : Option (List String)) : Option String :=
  l.bind List.head?

/-- WHERE clause of the search query in search_graph_nodes (and the
optimized variant): a seven-way OR over name, the first element of
occupation, specialty and hobby, achievement, description and type. -/
def searchWhere (q : String) (p : Person) : Bool :=
  cyTrue
    (cyOr (cyOr (cyOr (cyOr (cyOr (cyOr
      (cyContainsLower p.name q)
      (cyContainsLower (head0 p.occupation) q))
      (cyContainsLower (head0 p.specialty) q))
      (cyContainsLower (head0 p.hobby) q))
      (cyContainsLower p.achievement q))
      (cyContainsLower p.description q))
      (cyContainsLower p.ptype q))

/-- Person rows returned by GET /graph/nodes/search: WHERE filter then
LIMIT 50. -/
def search_graph_nodes_rows (store : GraphStore) (q : String) : List Person :=
  (store.nodes.filter (searchWhere q)).take 50

/-- The spec wording of the search predicate: q is a case-insensitive
substring of the name, the first element of the occupation, specialty or
hobby array, the achievement, the description, or the type. -/
def specSearchMatch (q : String) (p : Person) : Prop :=
  (∃ s, p.name = some s ∧ containsSub (strLower q) (strLower s)) ∨
  (∃ s, head0 p.occupation = some s ∧ containsSub (strLower q) (strLower s)) ∨
  (∃ s, head0 p.specialty = some s ∧ containsSub (strLower q) (strLower s)) ∨
  (∃ s, head0 p.hobby = some s ∧ containsSub (strLower q) (strLower s)) ∨
  (∃ s, p.achievement = some s ∧ containsSub (strLower q) (strLower s)) ∨
  (∃ s, p.description = some s ∧ containsSub (strLower q) (strLower s)) ∨
  (∃ s, p.ptype = some s ∧ containsSub (strLower q) (strLower s))

/-- One row of the connections MATCH: the anchor node bound to p, the
opposite endpoint bound to other, and the traversed relationship. -/
structure ConnRow where
  anchor : Person
  other : Person
  rel : Rel
  deriving DecidableEq, Repr

/-- MATCH (p:Person with id nid)-[r:RELATED_TO]-(other:Person): the
undirected typed traversal of get_node_connections.  Each stored edge
whose label is RELATED_TO yields a row per direction in which an
endpoint carries the requested id property; a self-loop yields a single
row. -/
def connMatches (store : GraphStore) (nid : String) : List ConnRow :=
  store.edges.flatMap (fun e =>
    if e.rel.label = "RELATED_TO" then
      (if e.src.pid = some nid then [⟨e.src, e.tgt, e.rel⟩] else []) ++
      (if e.tgt.pid = some nid ∧ e.src ≠ e.tgt then [⟨e.tgt, e.src, e.rel⟩] else [])
    else [])

/-- WHERE clause of the anonymous connections query, with Cypher
precedence; the source text
  p.source_type IN [...] OR p.source_type IS NULL
  AND other.source_type IN [...] OR other.source_type IS NULL
parses as X OR (Y AND Z) OR W. -/
def connAnonWhere (row : ConnRow) : Bool :=
  cyTrue
    (cyOr
      (cyOr (cyIn row.anchor.source_type pubTypes)
        (cyAnd (cyIsNull row.anchor.source_type) (cyIn row.other.source_type pubTypes)))
      (cyIsNull row.other.source_type))

/-- One record of the connections response: other.id as target_id,
r.strength as strength, r.description as description. -/
structure ConnRecord where
  target_id : Option String
  strength : Option Int
  description : Option String
  deriving DecidableEq, Repr

/-- The connections list computed inside get_node_connections (auth
already classified): typed undirected match, anonymous filter when
unauthenticated, LIMIT 10, then record shaping.  The handler does not
return this list directly; see get_node_connections_endpoint. -/
def get_node_connections (user? : Option UserRec) (store : GraphStore)
    (nid : String) : List ConnRecord :=
  let rows :=
    if user?.isSome then connMatches store nid
    else (connMatches store nid).filter connAnonWhere
  (rows.take 10).map (fun row => ⟨row.other.pid, row.rel.strength, row.rel.description⟩)

/-- The mapping the handler actually returns:
{"connections": connections}. -/
structure ConnectionsPayload where
  connections : List ConnRecord
  deriving DecidableEq, Repr

/-- The handler body of GET /graph/nodes/id/connections: it wraps the
computed record list in a connections mapping. -/
def get_node_connections_handler (user? : Option UserRec) (store : GraphStore)
    (nid : String) : ConnectionsPayload :=
  ⟨get_node_connections user? store nid⟩

/-- The 500 produced when the value a handler returns fails validation
against its declared response_model: the validation error is raised by
the framework after the handler (outside its try/except) and surfaces
as a plain internal server error. -/
def errResponseValidation : ApiError := ⟨500, "Internal Server Error"⟩

/-- The JSON shapes the connections route can hand to response
serialization: a list of connection records, or the mapping the handler
builds. -/
inductive RespValue
  | listOfRecords (l : List ConnRecord)
  | mapping (p : ConnectionsPayload)
  deriving DecidableEq, Repr

/-- Validation of the returned value against the route's declared
response_model List[dict]: a list of records passes; a mapping is not a
list and fails, whatever it contains. -/
def validateListDict : RespValue → Except ApiError (List ConnRecord)
  | .listOfRecords l => .ok l
  | .mapping _ => .error errResponseValidation

/-- GET /graph/nodes/id/connections end to end: the handler returns the
connections mapping while the route declares response_model=List[dict],
so the framework-side validation of the returned value runs on a
mapping and rejects it. -/
def get_node_connections_endpoint (user? : Option UserRec) (store : GraphStore)
    (nid : String) : Except ApiError (List ConnRecord) :=
  validateListDict (.mapping (get_node_connections_handler user? store nid))

/-- The body of PUT /persons/id: every field optional, absent fields
left untouched. -/
structure PersonUpdate where
  name : Option String
  birth_year : Option Int
  death_year : Option Int
  occupation : Option (List String)
  specialty : Option (List String)
  hobby : Option (List String)
  achievement : Option String
  female_experience : Option (List String)
  ptype : Option String
  frequency : Option Int
  degree : Option Int
  description : Option String
  human_readable_id : Option String
  knowledge_source : Option String
  is_verified : Option Bool
  deriving DecidableEq, Repr

/-- A PersonUpdate with no field supplied. -/
def PersonUpdate.empty : PersonUpdate :=
  ⟨none, none, none, none, none, none, none, none, none, none, none,
   none, none, none, none⟩

/-- The fifteen updatable properties, one per SET clause that
update_person may emit. -/
inductive UpdField
  | fname | fbirth | fdeath | focc | fspec | fhobby | fach | ffem
  | ftype | ffreq | fdeg | fdesc | fhrid | fksrc | fver
  deriving DecidableEq, Repr

/-- The update_fields list built by update_person: one SET clause per
field present in the request, in source order. -/
def updClauses (u : PersonUpdate) : List UpdField :=
  (if u.name.isSome then [UpdField.fname] else []) ++
  (if u.birth_year.isSome then [UpdField.fbirth] else []) ++
  (if u.death_year.isSome then [UpdField.fdeath] else []) ++
  (if u.occupation.isSome then [UpdField.focc] else []) ++
  (if u.specialty.isSome then [UpdField.fspec] else []) ++
  (if u.hobby.isSome then [UpdField.fhobby] else []) ++
  (if u.achievement.isSome then [UpdField.fach] else []) ++
  (if u.female_experience.isSome then [UpdField.ffem] else []) ++
  (if u.ptype.isSome then [UpdField.ftype] else []) ++
  (if u.frequency.isSome then [UpdField.ffreq] else []) ++
  (if u.degree.isSome then [UpdField.fdeg] else []) ++
  (if u.description.isSome then [UpdField.fdesc] else []) ++
  (if u.human_readable_id.isSome then [UpdField.fhrid] else []) ++
  (if u.knowledge_source.isSome then [UpdField.fksrc] else []) ++
  (if u.is_verified.isSome then [UpdField.fver] else [])

/-- Interpretation of one SET p.field = parameter clause: the clause for
field f stores the parameter taken from the request body. -/
def setOne (u : PersonUpdate) (p : Person) : UpdField → Person
  | .fname => { p with name := u.name }
  | .fbirth => { p with birth_year := u.birth_year }
  | .fdeath => { p with death_year := u.death_year }
  | .focc => { p with occupation := u.occupation }
  | .fspec => { p with specialty := u.specialty }
  | .fhobby => { p with hobby := u.hobby }
  | .fach => { p with achievement := u.achievement }
  | .ffem => { p with female_experience := u.female_experience }
  | .ftype => { p with ptype := u.ptype }
  | .ffreq => { p with frequency := u.frequency }
  | .fdeg => { p with degree := u.degree }
  | .fdesc => { p with description := u.description }
  | .fhrid => { p with human_readable_id := u.human_readable_id }
  | .fksrc => { p with knowledge_source := u.knowledge_source }
  | .fver => { p with is_verified := u.is_verified }

/-- The SET clause list applied left to right to a matched node. -/
def applySet (u : PersonUpdate) (p : Person) : Person :=
  (updClauses u).foldl (setOne u) p

/-- PUT /persons/id after strict auth: existence check by id property,
validation guard on an empty SET list, then the update query which
rewrites every matched node, and the response taken from the first
returned record.  The first component of the result is the store after
the request; the error paths return it unchanged since they raise
before the update query runs. -/
def update_person (store : GraphStore) (personId : String) (u : PersonUpdate) :
    GraphStore × Except ApiError Person :=
  let matched := store.nodes.filter (fun p => p.pid = some personId)
  if matched.isEmpty then
    (store, .error errPersonNotFound)
  else if (updClauses u).isEmpty then
    (store, .error errNoFields)
  else
    let newNodes := store.nodes.map
      (fun p => if p.pid = some personId then applySet u p else p)
    ({ store with nodes := newNodes },
      match (newNodes.filter (fun p => p.pid = some personId)).head? with
      | some updated => .ok updated
      | none => .error errPersonNotFound)

/-- The body of POST /persons. -/
structure PersonCreate where
  name : String
  birth_year : Option Int
  death_year : Option Int
  occupation : Option (List String)
  specialty : Option (List String)
  hobby : Option (List String)
  achievement : Option String
  female_experience : Option (List String)
  ptype : Option String
  frequency : Option Int
  degree : Option Int
  description : Option String
  human_readable_id : Option String
  knowledge_source : Option String
  source_type : String
  is_verified : Bool
  deriving DecidableEq, Repr

/-- The Person node written by the CREATE query of create_person: the
fresh uuid as id, created_by set to the caller's email, created_at the
current timestamp; a null parameter leaves the property absent. -/
def createPersonNode (pc : PersonCreate) (email personId nowIso : String) : Person :=
  { pid := some personId, name := some pc.name, birth_year := pc.birth_year,
    death_year := pc.death_year, occupation := pc.occupation,
    specialty := pc.specialty, hobby := pc.hobby, achievement := pc.achievement,
    female_experience := pc.female_experience, ptype := pc.ptype,
    frequency := pc.frequency, degree := pc.degree,
    description := pc.description, human_readable_id := pc.human_readable_id,
    knowledge_source := pc.knowledge_source, source_type := some pc.source_type,
    created_by := some email, is_verified := some pc.is_verified,
    created_at := some nowIso }

/-- POST /persons after strict auth: write the node, then link the
caller's user row to it only when the row has no linked person yet.
The uuid and timestamp are passed in as the values the handler drew. -/
def create_person (user : UserRec) (store : GraphStore) (pc : PersonCreate)
    (personId nowIso : String) : GraphStore × UserRec :=
  let node := createPersonNode pc user.email personId nowIso
  let store' := { store with nodes := store.nodes ++ [node] }
  let user' :=
    if user.neo4j_person_id = none then
      { user with neo4j_person_id := some personId, is_in_graph := true }
    else user
  (store', user')

/-- Registration request body. -/
structure UserCreate where
  email : String
  password : String
  full_name : Option String
  deriving DecidableEq, Repr

/-- Abstract model of pwd_context.hash (bcrypt); no claim depends on
its value. -/
def get_password_hash (password : String) : String :=
  "bcrypt$" ++ password

/-- Python full_name or email.split at sign, index 0: the or falls
through on None and on the empty string. -/
def registrationName (uc : UserCreate) : String :=
  match uc.full_name with
  | some n => if n ≠ "" then n else (uc.email.splitOn "@").headD ""
  | none => (uc.email.splitOn "@").headD ""

/-- The Person node the registration path writes for the new user. -/
def registrationPersonNode (uc : UserCreate) (personId nowIso : String) : Person :=
  { Person.empty with
    pid := some personId, name := some (registrationName uc),
    birth_year := some 1995, occupation := some ["User"],
    specialty := some ["User"],
    achievement := some "New user registration", ptype := some "user",
    frequency := some 1, degree := some 1,
    description := some ("用户 " ++ registrationName uc ++ " 的个人档案"),
    human_readable_id := some "0", knowledge_source := some "用户创建",
    source_type := some "user_created", created_by := some uc.email,
    is_verified := some false, created_at := some nowIso }

/-- create_user in user_service.py.  graphOk says whether the Neo4j
CREATE succeeded (False covers both a raised driver error and an empty
result, which the code turns into a raised Exception); the except
branch records the failure on the committed row and registration still
returns the user.  The result is the users table after the request and
the returned row. -/
def create_user (db : UserDB) (store : GraphStore) (uc : UserCreate)
    (graphOk : Bool) (personId nowIso : String) :
    Except String (UserDB × GraphStore × UserRec) :=
  if (get_user_by_email db uc.email).isSome then
    .error "Email already registered"
  else
    let dbUser : UserRec :=
      ⟨uc.email, get_password_hash uc.password, uc.full_name, true, none, false⟩
    if graphOk then
      let linked := { dbUser with neo4j_person_id := some personId, is_in_graph := true }
      .ok (db ++ [linked],
        { store with nodes := store.nodes ++ [registrationPersonNode uc personId nowIso] },
        linked)
    else
      let unlinked := { dbUser with neo4j_person_id := none, is_in_graph := false }
      .ok (db ++ [unlinked], store, unlinked)

/-- Fixture: a system-sourced person. -/
def personA : Person :=
  { Person.empty with pid := some "a", name := some "Alice Node", source_type := some "system" }

/-- Fixture: a user-contributed person. -/
def personB : Person :=
  { Person.empty with pid := some "b", name := some "Bob Node", source_type := some "user_created" }

/-- Fixture: a user-contributed RELATED_TO relationship. -/
def relUC : Rel :=
  { Rel.onlyLabel "RELATED_TO" with strength := some 3, source_type := some "user_created" }

/-- Fixture: the directed edge from personA to personB. -/
def edgeAB : Edge := ⟨personA, personB, relUC⟩

/-- Fixture: store with a public source node, a user-created target node
and a user-created edge between them. -/
def storeLeak : GraphStore := ⟨[personA, personB], [edgeAB]⟩

/-- Fixture: store holding only public data. -/
def storePublic : GraphStore := ⟨[personA], []⟩

/-- Fixture: store where the user-created node precedes the public one. -/
def storePaged : GraphStore := ⟨[personB, personA], []⟩

/-- Fixture: an active user row. -/
def userActive : UserRec := ⟨"alice@example.com", "h1", none, true, none, false⟩

/-- Fixture: an inactive user row. -/
def userInactive : UserRec := ⟨"bob@example.com", "h2", none, false, none, false⟩

/-- Fixture: users table. -/
def usersDb : UserDB := [userActive, userInactive]

/-- Fixture: a person record whose id property is absent. -/
def personNoId : Person :=
  { Person.empty with name := some "Ada", source_type := some "system" }

/-- Fixture: store yielding a record with a null identifier. -/
def storeNoId : GraphStore := ⟨[personNoId], []⟩

/-- Fixture: a person reachable only through a KNOWS relationship. -/
def personC : Person :=
  { Person.empty with pid := some "c", name := some "Carol Node", source_type := some "system" }

/-- Fixture: a KNOWS relationship (label other than RELATED_TO). -/
def relKnows : Rel := { Rel.onlyLabel "KNOWS" with strength := some 5 }

/-- Fixture: the edge from personC to personA labelled KNOWS. -/
def edgeCA : Edge := ⟨personC, personA, relKnows⟩

/-- Fixture: store where node c is connected only via KNOWS. -/
def storeKnows : GraphStore := ⟨[personA, personC], [edgeCA]⟩

/-- Fixture: a person for search scenarios whose second occupation entry
holds the probe word. -/
def personSearch : Person :=
  { Person.empty with
    pid := some "s", name := some "Ada Lovelace",
    occupation := some ["Engineer", "Poet"],
    description := some "First programmer" }

/-- Fixture: search store. -/
def storeSearch : GraphStore := ⟨[personSearch], []⟩

/-- Fixture: a person before an update. -/
def personOld : Person :=
  { Person.empty with
    pid := some "p1", name := some "Old Name",
    birth_year := some 1900, occupation := some ["Scholar"],
    source_type := some "public", created_by := some "seed@example.com",
    created_at := some "2020-01-01T00:00:00" }

/-- Fixture: store for update scenarios. -/
def storeUpd : GraphStore := ⟨[personOld, personA], []⟩

/-- Fixture: an update supplying only the name field. -/
def updNameOnly : PersonUpdate :=
  { PersonUpdate.empty with name := some "New Name" }

/-- The user row as committed by the registration failure path: active,
hashed password, not in graph, no linked person. -/
def unlinkedRow (uc : UserCreate) : UserRec :=
  ⟨uc.email, get_password_hash uc.password, uc.full_name, true, none, false⟩

/-- Fixture: registration request. -/
def ucEve : UserCreate := ⟨"eve@example.com", "pw", none⟩

/-- Fixture: a user row already linked to a person node. -/
def userLinked : UserRec :=
  ⟨"carol@example.com", "h3", none, true, some "existing", true⟩

/-- Fixture: a person-creation request body. -/
def pcSample : PersonCreate :=
  ⟨"Ada", none, none, none, none, none, none, none, none, none, none,
   none, none, none, "user_created", false⟩

/-- A property value of any of the four types an updatable Person
property can have; none inside means absent. -/
inductive PVal
  | vs (s : Option String)
  | vi (n : Option Int)
  | vl (l : Option (List String))
  | vb (b : Option Bool)
  deriving DecidableEq, Repr

/-- Whether a property value is present. -/
def pvalSupplied : PVal → Bool
  | .vs s => s.isSome
  | .vi n => n.isSome
  | .vl l => l.isSome
  | .vb b => b.isSome

/-- Projection of an updatable property out of a stored Person. -/
def projP (f : UpdField) (p : Person) : PVal :=
  match f with
  | .fname => .vs p.name
  | .fbirth => .vi p.birth_year
  | .fdeath => .vi p.death_year
  | .focc => .vl p.occupation
  | .fspec => .vl p.specialty
  | .fhobby => .vl p.hobby
  | .fach => .vs p.achievement
  | .ffem => .vl p.female_experience
  | .ftype => .vs p.ptype
  | .ffreq => .vi p.frequency
  | .fdeg => .vi p.degree
  | .fdesc => .vs p.description
  | .fhrid => .vs p.human_readable_id
  | .fksrc => .vs p.knowledge_source
  | .fver => .vb p.is_verified

/-- Projection of an updatable property out of a request body. -/
def projU (f : UpdField) (u : PersonUpdate) : PVal :=
  match f with
  | .fname => .vs u.name
  | .fbirth => .vi u.birth_year
  | .fdeath => .vi u.death_year
  | .focc => .vl u.occupation
  | .fspec => .vl u.specialty
  | .fhobby => .vl u.hobby
  | .fach => .vs u.achievement
  | .ffem => .vl u.female_experience
  | .ftype => .vs u.ptype
  | .ffreq => .vi u.frequency
  | .fdeg => .vi u.degree
  | .fdesc => .vs u.description
  | .fhrid => .vs u.human_readable_id
  | .fksrc => .vs u.knowledge_source
  | .fver => .vb u.is_verified

end Hackson

namespace Hackson

/-- The anonymous node WHERE clause coincides with the spec predicate. -/
theorem anonNodeWhere_iff (p : Person) :
    anonNodeWhere p = true ↔ specAnonVisible p.source_type := by
  rcases h : p.source_type with _ | s
  · simp [anonNodeWhere, cyTrue, cyOr, cyIn, cyIsNull, specAnonVisible, h]
  · cases hb : pubTypes.contains s with
    | false =>
        have hns : ¬ (s = "system" ∨ s = "public") := by
          intro hcase
          rcases hcase with h1 | h1 <;> simp [pubTypes, h1] at hb
        simp only [anonNodeWhere, cyTrue, cyOr, cyIn, cyIsNull, specAnonVisible, h,
          Option.map_some', hb, Option.isNone_some]
        constructor
        · intro hcontr
          exact absurd hcontr (by decide)
        · intro hcase
          rcases hcase with h1 | h1 | h1 <;> simp_all
    | true =>
        have hys : s = "system" ∨ s = "public" := by
          simpa [pubTypes] using hb
        simp only [anonNodeWhere, cyTrue, cyOr, cyIn, cyIsNull, specAnonVisible, h,
          Option.map_some', hb, Option.isNone_some]
        constructor
        · intro _
          rcases hys with h1 | h1 <;> simp [h1]
        · intro _
          rfl

/-- Window over the whole list is the identity. -/
theorem window_zero_all {α : Type} {l : List α} {n : Nat} (h : l.length ≤ n) :
    window 0 n l = l := by
  simp [window, List.take_of_length_le h]

/-- C1: the claim says every Person node and every edge (both endpoints
and the edge itself) returned to an anonymous caller on /graph/network
and /graph/network/optimized satisfies the public-visibility predicate.
The code violates this for edges: Cypher parses the anonymous edges
WHERE clause with AND binding tighter than OR, so an edge whose source
is public passes the filter regardless of the target and relationship
source_type.  On storeLeak the anonymous node rows correctly hide the
user_created node b, yet the edge a to b is returned with its
user_created target and user_created relationship. -/
theorem anon_network_edge_filter_leaks_user_created :
    networkNodeRows false storeLeak 0 100 = [personA] ∧
    networkEdgeRows false storeLeak 0 100 = [edgeAB] ∧
    edgeAB.tgt.source_type = some "user_created" ∧
    ¬ specAnonVisible edgeAB.tgt.source_type ∧
    ¬ specAnonVisible edgeAB.rel.source_type := by
  refine ⟨by decide, by decide, by decide, by decide, by decide⟩

/-- C2: the claim says all four credential failures (missing token,
invalid or expired token, unresolvable identity, inactive account) are
hard errors in strict mode and silent anonymous classifications in
optional mode.  Strict mode behaves as claimed, and optional mode
degrades silently for an invalid token, an expired token, an unknown
subject and an inactive account; but a MISSING token is rejected with
401 Not authenticated even on the optional path, because the
OAuth2PasswordBearer dependency (auto_error left True) raises before
get_current_user_or_none runs, so the request to GET /graph/network is
rejected rather than served anonymously. -/
theorem optional_auth_rejects_missing_token :
    get_current_user Cred.missing usersDb = .error errNotAuthenticated ∧
    get_current_user (Cred.bearer .malformed) usersDb = .error errBadCreds ∧
    get_current_user (Cred.bearer .expired) usersDb = .error errBadCreds ∧
    get_current_user (Cred.bearer (.subject "ghost@example.com")) usersDb
      = .error errUserNotFound ∧
    get_current_user (Cred.bearer (.subject "bob@example.com")) usersDb
      = .error errInactive ∧
    get_current_user_or_none (Cred.bearer .malformed) usersDb = .ok none ∧
    get_current_user_or_none (Cred.bearer .expired) usersDb = .ok none ∧
    get_current_user_or_none (Cred.bearer (.subject "ghost@example.com")) usersDb
      = .ok none ∧
    get_current_user_or_none (Cred.bearer (.subject "bob@example.com")) usersDb
      = .ok none ∧
    get_current_user_or_none Cred.missing usersDb = .error errNotAuthenticated ∧
    get_graph_network Cred.missing usersDb storeLeak 0 100 0 100
        (fun _ => "u") (fun _ => "u") (fun _ => "u") (fun _ => "u")
      = .error errNotAuthenticated := by
  refine ⟨rfl, rfl, rfl, rfl, rfl, rfl, rfl, rfl, rfl, rfl, rfl⟩

/-- C3 counterexample: authenticated visibility is not a strict superset
of anonymous visibility for the same pagination parameters.  With the
window skip 0 limit 1 on storePaged the anonymous caller sees personA
while the authenticated caller sees only personB, so the anonymous
result is not even contained in the authenticated one; and on an
all-public store the two results coincide, so the inclusion is not
strict. -/
theorem auth_superset_counterexample :
    networkNodeRows false storePaged 0 1 = [personA] ∧
    networkNodeRows true storePaged 0 1 = [personB] ∧
    personA ∉ networkNodeRows true storePaged 0 1 ∧
    networkNodeRows true storePublic 0 100 = networkNodeRows false storePublic 0 100 := by
  refine ⟨by decide, by decide, by decide, by decide⟩

/-- C3 amended: when the pagination window covers the whole store
(skip 0, limits at least the store sizes), the authenticated node and
edge results contain the anonymous ones, and every stored record that
fails the anonymous filter is visible to the authenticated caller but
not to the anonymous caller (so the containment is strict exactly when
such a record exists). -/
theorem auth_superset_amended (store : GraphStore) (limN limE : Nat)
    (hN : store.nodes.length ≤ limN) (hE : store.edges.length ≤ limE) :
    (∀ p ∈ networkNodeRows false store 0 limN, p ∈ networkNodeRows true store 0 limN) ∧
    (∀ e ∈ networkEdgeRows false store 0 limE, e ∈ networkEdgeRows true store 0 limE) ∧
    (∀ p ∈ store.nodes, anonNodeWhere p = false →
      p ∈ networkNodeRows true store 0 limN ∧ p ∉ networkNodeRows false store 0 limN) ∧
    (∀ e ∈ store.edges, anonEdgeWhere e = false →
      e ∈ networkEdgeRows true store 0 limE ∧ e ∉ networkEdgeRows false store 0 limE) := by
  have hNT : networkNodeRows true store 0 limN = store.nodes := by
    simp only [networkNodeRows, if_pos]
    exact window_zero_all hN
  have hNF : networkNodeRows false store 0 limN = store.nodes.filter anonNodeWhere := by
    simp only [networkNodeRows, if_neg]
    exact window_zero_all (le_trans (store.nodes.length_filter_le _) hN)
  have hET : networkEdgeRows true store 0 limE = store.edges := by
    simp only [networkEdgeRows, if_pos]
    exact window_zero_all hE
  have hEF : networkEdgeRows false store 0 limE = store.edges.filter anonEdgeWhere := by
    simp only [networkEdgeRows, if_neg]
    exact window_zero_all (le_trans (store.edges.length_filter_le _) hE)
  refine ⟨?_, ?_, ?_, ?_⟩
  · intro p hp
    rw [hNF] at hp
    rw [hNT]
    exact (List.mem_filter.mp hp).1
  · intro e he
    rw [hEF] at he
    rw [hET]
    exact (List.mem_filter.mp he).1
  · intro p hp hfail
    refine ⟨by rw [hNT]; exact hp, ?_⟩
    rw [hNF]
    intro hmem
    have := (List.mem_filter.mp hmem).2
    rw [hfail] at this
    exact Bool.false_ne_true this
  · intro e he hfail
    refine ⟨by rw [hET]; exact he, ?_⟩
    rw [hEF]
    intro hmem
    have := (List.mem_filter.mp hmem).2
    rw [hfail] at this
    exact Bool.false_ne_true this

/-- Witness for the amended C3 theorem at a concrete store: the
user_created node is authenticated-visible and anonymous-invisible once
the window covers the store. -/
theorem auth_superset_amended_witness :
    personB ∈ networkNodeRows true storePaged 0 2 ∧
    personB ∉ networkNodeRows false storePaged 0 2 := by
  have h := auth_superset_amended storePaged 2 0 (by decide) (by decide)
  exact h.2.2.1 personB (by decide) (by decide)

end Hackson

namespace Hackson

/-- Lengths are preserved by the total network node shaping. -/
theorem shapeNetworkNodes_length (freshN : Nat → String) :
    ∀ (i : Nat) (l : List Person),
      (shapeNetworkNodes freshN i l).length = l.length := by
  intro i l
  induction l generalizing i with
  | nil => rfl
  | cons p t ih => simp [shapeNetworkNodes, ih]

/-- The strict node shaping aborts with the 500 as soon as the row list
contains a record with a null id or a null name. -/
theorem shapeNodesStrict_err :
    ∀ {l : List Person}, (∃ p ∈ l, p.pid = none ∨ p.name = none) →
      shapeNodesStrict l = .error errNodesFailure := by
  intro l h
  induction l with
  | nil => simp at h
  | cons a t ih =>
    rcases h with ⟨p, hp, hfail⟩
    rcases List.mem_cons.mp hp with rfl | hmem
    · cases hpid : p.pid <;> cases hname : p.name <;>
        simp_all [shapeNodesStrict, shapeNodeStrict]
    · have htail := ih ⟨p, hmem, hfail⟩
      cases hpid : a.pid <;> cases hname : a.name <;>
        simp_all [shapeNodesStrict, shapeNodeStrict]

/-- The strict node shaping succeeds, one node per row, when every row
carries an id and a name. -/
theorem shapeNodesStrict_ok :
    ∀ {l : List Person}, (∀ p ∈ l, p.pid.isSome ∧ p.name.isSome) →
      ∃ r, shapeNodesStrict l = .ok r ∧ r.length = l.length := by
  intro l h
  induction l with
  | nil => exact ⟨[], rfl, rfl⟩
  | cons a t ih =>
    obtain ⟨r, hr, hlen⟩ := ih (fun p hp => h p (List.mem_cons_of_mem a hp))
    obtain ⟨h1, h2⟩ := h a (List.mem_cons_self a t)
    rcases hpid : a.pid with _ | i
    · rw [hpid] at h1; simp at h1
    rcases hname : a.name with _ | n
    · rw [hname] at h2; simp at h2
    exact ⟨⟨i, n, "person", personProps a⟩ :: r, by
      simp [shapeNodesStrict, shapeNodeStrict, hpid, hname, hr], by simp [hlen]⟩

/-- C8 counterexample: not every node-returning endpoint synthesizes a
fallback identifier.  On a store whose single record (name Ada) has no
id property, GET /graph/nodes fails with a 500 via pydantic validation
of the required id field, while GET /graph/network does synthesize a
name-derived identifier for the same record. -/
theorem nodes_endpoint_null_id_no_fallback :
    get_graph_nodes storeNoId 0 100 = .error errNodesFailure ∧
    (shapeNetworkNodes (fun _ => "f8") 0 (networkNodeRows false storeNoId 0 100)).map
        GraphNodeR.gid = ["ada-f8"] := by
  refine ⟨rfl, by decide⟩

/-- C8 amended: GET /graph/network always returns one shaped node per
visible record (identifiers are synthesized when absent, so shaping
never fails), while GET /graph/nodes fails with the 500 exactly when
some windowed record lacks its id or name, and succeeds one node per
record otherwise. -/
theorem node_id_fallback_amended (store : GraphStore) (skip lim : Nat)
    (authed : Bool) (freshN : Nat → String) :
    ((∃ p ∈ window skip lim store.nodes, p.pid = none ∨ p.name = none) →
      get_graph_nodes store skip lim = .error errNodesFailure) ∧
    ((∀ p ∈ window skip lim store.nodes, p.pid.isSome ∧ p.name.isSome) →
      ∃ r, get_graph_nodes store skip lim = .ok r ∧
        r.length = (window skip lim store.nodes).length) ∧
    (shapeNetworkNodes freshN 0 (networkNodeRows authed store skip lim)).length
      = (networkNodeRows authed store skip lim).length := by
  refine ⟨?_, ?_, shapeNetworkNodes_length freshN 0 _⟩
  · intro h
    exact shapeNodesStrict_err h
  · intro h
    exact shapeNodesStrict_ok h

/-- Witness for the amended C8 theorem on the null-id store. -/
theorem node_id_fallback_amended_witness :
    get_graph_nodes storeNoId 0 100 = .error errNodesFailure ∧
    (shapeNetworkNodes (fun _ => "f8") 0 (networkNodeRows false storeNoId 0 100)).length
      = (networkNodeRows false storeNoId 0 100).length := by
  have h := node_id_fallback_amended storeNoId 0 100 false (fun _ => "f8")
  exact ⟨h.1 ⟨personNoId, by decide, by decide⟩, h.2.2⟩

end Hackson

namespace Hackson

/-- Membership in a conditional singleton list. -/
theorem mem_if_singleton {c : Prop} [Decidable c] {x a : UpdField} :
    (a ∈ if c then [x] else []) ↔ (c ∧ a = x) := by
  by_cases h : c <;> simp [h]

/-- A field has a SET clause exactly when the request supplies it. -/
theorem mem_updClauses (u : PersonUpdate) (f : UpdField) :
    f ∈ updClauses u ↔ pvalSupplied (projU f u) = true := by
  cases f <;>
    simp [updClauses, List.mem_append, mem_if_singleton, projU, pvalSupplied]

/-- One SET clause writes its own property and leaves every other
updatable property unchanged. -/
theorem setOne_proj (u : PersonUpdate) (p : Person) (g f : UpdField) :
    projP f (setOne u p g) = if g = f then projU f u else projP f p := by
  cases g <;> cases f <;> rfl

/-- No SET clause touches id, source_type, created_by or created_at. -/
theorem setOne_frame (u : PersonUpdate) (p : Person) (g : UpdField) :
    (setOne u p g).pid = p.pid ∧ (setOne u p g).source_type = p.source_type ∧
    (setOne u p g).created_by = p.created_by ∧ (setOne u p g).created_at = p.created_at := by
  cases g <;> exact ⟨rfl, rfl, rfl, rfl⟩

/-- Folding a clause list writes exactly the listed properties. -/
theorem foldl_setOne_proj (u : PersonUpdate) (f : UpdField) :
    ∀ (l : List UpdField) (p : Person),
      projP f (l.foldl (setOne u) p) = if f ∈ l then projU f u else projP f p := by
  intro l
  induction l with
  | nil => intro p; simp
  | cons a t ih =>
    intro p
    simp only [List.foldl_cons]
    rw [ih (setOne u p a), setOne_proj]
    by_cases h1 : f ∈ t
    · simp [h1, List.mem_cons]
    · by_cases h2 : a = f
      · simp [h1, h2, List.mem_cons]
      · have h3 : ¬ f = a := fun hh => h2 hh.symm
        simp [h1, h2, h3, List.mem_cons]

/-- Folding a clause list never touches the non-updatable properties. -/
theorem foldl_setOne_frame (u : PersonUpdate) :
    ∀ (l : List UpdField) (p : Person),
      (l.foldl (setOne u) p).pid = p.pid ∧
      (l.foldl (setOne u) p).source_type = p.source_type ∧
      (l.foldl (setOne u) p).created_by = p.created_by ∧
      (l.foldl (setOne u) p).created_at = p.created_at := by
  intro l
  induction l with
  | nil => intro p; exact ⟨rfl, rfl, rfl, rfl⟩
  | cons a t ih =>
    intro p
    simp only [List.foldl_cons]
    obtain ⟨e1, e2, e3, e4⟩ := ih (setOne u p a)
    obtain ⟨s1, s2, s3, s4⟩ := setOne_frame u p a
    exact ⟨e1.trans s1, e2.trans s2, e3.trans s3, e4.trans s4⟩

/-- applySet writes a property exactly when the request supplies it. -/
theorem applySet_proj (u : PersonUpdate) (p : Person) (f : UpdField) :
    projP f (applySet u p) =
      if pvalSupplied (projU f u) = true then projU f u else projP f p := by
  unfold applySet
  rw [foldl_setOne_proj]
  by_cases h : f ∈ updClauses u
  · simp [h, (mem_updClauses u f).mp h]
  · have hb : pvalSupplied (projU f u) = false := by
      rcases hv : pvalSupplied (projU f u) with _ | _
      · rfl
      · exact absurd ((mem_updClauses u f).mpr hv) h
    simp [h, hb]

/-- A non-empty matched list has isEmpty false. -/
theorem isEmpty_false_of_mem {l : List Person} {p : Person} (hp : p ∈ l) :
    l.isEmpty = false := by
  cases l with
  | nil => exact absurd hp (List.not_mem_nil p)
  | cons a t => rfl

/-- C4: a partial update of an existing person that supplies zero
recognized fields (the request body with every field absent) is
rejected with the 400 No fields to update, and the store is returned
unchanged because the guard fires before the update query runs. -/
theorem update_zero_fields (store : GraphStore) (personId : String)
    (hex : ∃ p ∈ store.nodes, p.pid = some personId) :
    update_person store personId PersonUpdate.empty = (store, .error errNoFields) := by
  obtain ⟨p, hp, hpid⟩ := hex
  have hmem : p ∈ store.nodes.filter (fun q => q.pid = some personId) :=
    List.mem_filter.mpr ⟨hp, by simp [hpid]⟩
  have hmatched := isEmpty_false_of_mem hmem
  simp [update_person, hmatched, updClauses, PersonUpdate.empty]

/-- Witness for C4 on a concrete store. -/
theorem update_zero_fields_witness :
    update_person storeUpd "p1" PersonUpdate.empty = (storeUpd, .error errNoFields) :=
  update_zero_fields storeUpd "p1" ⟨personOld, by decide, by decide⟩

/-- C5: a partial update of an existing person that supplies at least
one field rewrites the store by applying exactly the supplied SET
clauses to the matched node: a supplied property takes the supplied
value, an unsupplied property keeps its prior value, the non-updatable
properties (id, source_type, created_by, created_at) are never touched,
and every node with a different id is unchanged. -/
theorem update_sparse_semantics (store : GraphStore) (personId : String)
    (u : PersonUpdate) (hex : ∃ p ∈ store.nodes, p.pid = some personId)
    (hne : (updClauses u).isEmpty = false) :
    (update_person store personId u).1.nodes =
      store.nodes.map (fun p => if p.pid = some personId then applySet u p else p) ∧
    (∀ p f, pvalSupplied (projU f u) = true → projP f (applySet u p) = projU f u) ∧
    (∀ p f, pvalSupplied (projU f u) = false → projP f (applySet u p) = projP f p) ∧
    (∀ p, (applySet u p).pid = p.pid ∧ (applySet u p).source_type = p.source_type ∧
      (applySet u p).created_by = p.created_by ∧ (applySet u p).created_at = p.created_at) := by
  obtain ⟨p, hp, hpid⟩ := hex
  have hmem : p ∈ store.nodes.filter (fun q => q.pid = some personId) :=
    List.mem_filter.mpr ⟨hp, by simp [hpid]⟩
  have hmatched := isEmpty_false_of_mem hmem
  refine ⟨by simp [update_person, hmatched, hne], ?_, ?_, ?_⟩
  · intro q f hsup
    rw [applySet_proj, if_pos hsup]
  · intro q f hsup
    rw [applySet_proj, hsup]
    simp
  · intro q
    exact foldl_setOne_frame u (updClauses u) q

/-- Witness for C5: updating only the name of personOld changes its
name to the new value, keeps its birth year and created_by, and maps
the store pointwise. -/
theorem update_sparse_semantics_witness :
    (update_person storeUpd "p1" updNameOnly).1.nodes =
      storeUpd.nodes.map (fun p => if p.pid = some "p1" then applySet updNameOnly p else p) ∧
    projP UpdField.fname (applySet updNameOnly personOld) = PVal.vs (some "New Name") ∧
    projP UpdField.fbirth (applySet updNameOnly personOld) = PVal.vi (some 1900) ∧
    (applySet updNameOnly personOld).created_by = some "seed@example.com" := by
  have h := update_sparse_semantics storeUpd "p1" updNameOnly
    ⟨personOld, by decide, by decide⟩ (by decide)
  refine ⟨h.1, ?_, ?_, ?_⟩
  · rw [h.2.1 personOld UpdField.fname (by decide)]; rfl
  · rw [h.2.2.1 personOld UpdField.fbirth (by decide)]; rfl
  · exact ((h.2.2.2 personOld).2.2.1).trans (by rfl)

end Hackson

namespace Hackson

/-- Every row of the connections MATCH comes from a stored RELATED_TO
edge incident (by id property) to the requested node, in one of the two
traversal directions. -/
theorem mem_connMatches {store : GraphStore} {nid : String} {row : ConnRow}
    (h : row ∈ connMatches store nid) :
    ∃ e ∈ store.edges, e.rel.label = "RELATED_TO" ∧
      ((row = ⟨e.src, e.tgt, e.rel⟩ ∧ e.src.pid = some nid) ∨
       (row = ⟨e.tgt, e.src, e.rel⟩ ∧ e.tgt.pid = some nid)) := by
  obtain ⟨e, he, hrow⟩ := List.mem_flatMap.mp h
  by_cases hl : e.rel.label = "RELATED_TO"
  · rw [if_pos hl] at hrow
    rcases List.mem_append.mp hrow with h1 | h1
    · by_cases hs : e.src.pid = some nid
      · rw [if_pos hs] at h1
        exact ⟨e, he, hl, Or.inl ⟨List.mem_singleton.mp h1, hs⟩⟩
      · rw [if_neg hs] at h1
        exact absurd h1 (List.not_mem_nil row)
    · by_cases ht : e.tgt.pid = some nid ∧ e.src ≠ e.tgt
      · rw [if_pos ht] at h1
        exact ⟨e, he, hl, Or.inr ⟨List.mem_singleton.mp h1, ht.1⟩⟩
      · rw [if_neg ht] at h1
        exact absurd h1 (List.not_mem_nil row)
  · rw [if_neg hl] at hrow
    exact absurd hrow (List.not_mem_nil row)

/-- When no stored edge incident to the node is labelled RELATED_TO the
traversal produces no rows. -/
theorem connMatches_nil {store : GraphStore} {nid : String}
    (h : ∀ e ∈ store.edges, (e.src.pid = some nid ∨ e.tgt.pid = some nid) →
      e.rel.label ≠ "RELATED_TO") :
    connMatches store nid = [] := by
  rw [List.eq_nil_iff_forall_not_mem]
  intro row hrow
  obtain ⟨e, he, hl, hcase⟩ := mem_connMatches hrow
  rcases hcase with ⟨_, hs⟩ | ⟨_, ht⟩
  · exact h e he (Or.inl hs) hl
  · exact h e he (Or.inr ht) hl

/-- The connections list computed inside the handler holds at most 10
records; every record is shaped from a stored RELATED_TO edge incident
to the node and carries the opposite endpoint's id, the relationship
strength and description; a node whose incident edges all carry other
labels yields an empty list, although GET /graph/edges (which matches
untyped) still lists those edges. -/
theorem connections_contract (user? : Option UserRec) (store : GraphStore)
    (nid : String) :
    (get_node_connections user? store nid).length ≤ 10 ∧
    (∀ c ∈ get_node_connections user? store nid,
      ∃ e ∈ store.edges, e.rel.label = "RELATED_TO" ∧
        (e.src.pid = some nid ∨ e.tgt.pid = some nid) ∧
        (c.target_id = e.tgt.pid ∨ c.target_id = e.src.pid) ∧
        c.strength = e.rel.strength ∧ c.description = e.rel.description) ∧
    ((∀ e ∈ store.edges, (e.src.pid = some nid ∨ e.tgt.pid = some nid) →
        e.rel.label ≠ "RELATED_TO") →
      get_node_connections user? store nid = []) ∧
    (∀ e ∈ store.edges, e ∈ get_graph_edges_rows store 0 store.edges.length) := by
  refine ⟨?_, ?_, ?_, ?_⟩
  · have hdef : get_node_connections user? store nid =
        ((if user?.isSome then connMatches store nid
          else (connMatches store nid).filter connAnonWhere).take 10).map
          (fun row => (⟨row.other.pid, row.rel.strength, row.rel.description⟩ : ConnRecord)) := rfl
    rw [hdef, List.length_map]
    exact List.length_take_le 10 _
  · intro c hc
    obtain ⟨row, hrow, hshape⟩ := List.mem_map.mp hc
    have hrow2 : row ∈
        (if user?.isSome then connMatches store nid
         else (connMatches store nid).filter connAnonWhere) :=
      List.take_subset 10 _ hrow
    have hrow3 : row ∈ connMatches store nid := by
      by_cases ha : user?.isSome
      · rw [if_pos ha] at hrow2; exact hrow2
      · rw [if_neg ha] at hrow2; exact List.mem_of_mem_filter hrow2
    obtain ⟨e, he, hl, hcase⟩ := mem_connMatches hrow3
    rcases hcase with ⟨hr, hs⟩ | ⟨hr, ht⟩
    · subst hr
      exact ⟨e, he, hl, Or.inl hs,
        ⟨Or.inl (by rw [← hshape]), by rw [← hshape], by rw [← hshape]⟩⟩
    · subst hr
      exact ⟨e, he, hl, Or.inr ht,
        ⟨Or.inr (by rw [← hshape]), by rw [← hshape], by rw [← hshape]⟩⟩
  · intro h
    have hnil := connMatches_nil h
    simp [get_node_connections, hnil]
  · intro e he
    rw [get_graph_edges_rows, window_zero_all (le_refl _)]
    exact he

/-- The inner-list facts at a concrete store: node c of storeKnows is
connected only through a KNOWS edge, so its computed connections list
is empty for anonymous and authenticated callers alike, while the edge
listing still carries the KNOWS edge. -/
theorem connections_contract_witness :
    get_node_connections none storeKnows "c" = [] ∧
    get_node_connections (some userActive) storeKnows "c" = [] ∧
    edgeCA ∈ get_graph_edges_rows storeKnows 0 storeKnows.edges.length := by
  have h1 := connections_contract none storeKnows "c"
  have h2 := connections_contract (some userActive) storeKnows "c"
  exact ⟨h1.2.2.1 (by decide), h2.2.2.1 (by decide), h1.2.2.2 edgeCA (by decide)⟩

end Hackson

namespace Hackson

/-- A Cypher OR passes WHERE exactly when one operand does. -/
theorem cyTrue_or (a b : Cy) : cyTrue (cyOr a b) = (cyTrue a || cyTrue b) := by
  revert a b
  decide

/-- A CONTAINS term passes WHERE exactly when the field is present and
the lowered needle occurs in the lowered field. -/
theorem cyTrue_containsLower (f : Option String) (q : String) :
    cyTrue (cyContainsLower f q) = true ↔
      ∃ s, f = some s ∧ containsSub (strLower q) (strLower s) = true := by
  cases f <;> simp [cyContainsLower, cyTrue]

/-- The search WHERE clause is exactly the spec's seven-field
case-insensitive substring disjunction. -/
theorem searchWhere_iff (q : String) (p : Person) :
    searchWhere q p = true ↔ specSearchMatch q p := by
  simp only [searchWhere, cyTrue_or, Bool.or_eq_true, cyTrue_containsLower,
    specSearchMatch, or_assoc]

/-- C7: the search returns at most 50 records; its match predicate holds
iff q is a case-insensitive substring of the name, the first element of
the occupation, specialty or hobby array, the achievement, the
description or the type (so a hit only in a later array element never
matches); every returned person is a stored person satisfying the
predicate, and while the matches fit under the cap the returned set is
exactly the set of matching stored persons. -/
theorem search_contract (store : GraphStore) (q : String) :
    (search_graph_nodes_rows store q).length ≤ 50 ∧
    (∀ p, searchWhere q p = true ↔ specSearchMatch q p) ∧
    (∀ p ∈ search_graph_nodes_rows store q, p ∈ store.nodes ∧ specSearchMatch q p) ∧
    ((store.nodes.filter (searchWhere q)).length ≤ 50 →
      ∀ p ∈ store.nodes, (specSearchMatch q p ↔ p ∈ search_graph_nodes_rows store q)) := by
  refine ⟨List.length_take_le 50 _, fun p => searchWhere_iff q p, ?_, ?_⟩
  · intro p hp
    have hp2 : p ∈ store.nodes.filter (searchWhere q) := List.take_subset 50 _ hp
    obtain ⟨h1, h2⟩ := List.mem_filter.mp hp2
    exact ⟨h1, (searchWhere_iff q p).mp h2⟩
  · intro hlen p hp
    have hall : (store.nodes.filter (searchWhere q)).take 50
        = store.nodes.filter (searchWhere q) := List.take_of_length_le hlen
    constructor
    · intro hmatch
      show p ∈ (store.nodes.filter (searchWhere q)).take 50
      rw [hall]
      exact List.mem_filter.mpr ⟨hp, (searchWhere_iff q p).mpr hmatch⟩
    · intro hmem
      have hp2 : p ∈ store.nodes.filter (searchWhere q) := List.take_subset 50 _ hmem
      exact (searchWhere_iff q p).mp (List.mem_filter.mp hp2).2

/-- Witness for C7: the probe word sits only in the second occupation
entry of personSearch, so the person does not match and the search
result is empty even though the word occurs in the stored record. -/
theorem search_contract_witness :
    (search_graph_nodes_rows storeSearch "poet").length ≤ 50 ∧
    searchWhere "poet" personSearch = false ∧
    (specSearchMatch "poet" personSearch ↔
      personSearch ∈ search_graph_nodes_rows storeSearch "poet") ∧
    personSearch ∉ search_graph_nodes_rows storeSearch "poet" := by
  have h := search_contract storeSearch "poet"
  refine ⟨h.1, by decide, h.2.2.2 (by decide) personSearch (by decide), by decide⟩

/-- C9: when the relational insert succeeds but the graph-store Person
creation fails, registration still returns the committed user row: the
result is ok (no exception escapes), the row is appended to the users
table with is_in_graph false and no linked person id, the account is
active, and the graph store is untouched. -/
theorem registration_graph_failure_tolerated (db : UserDB) (store : GraphStore)
    (uc : UserCreate) (personId nowIso : String)
    (hfree : get_user_by_email db uc.email = none) :
    create_user db store uc false personId nowIso
      = .ok (db ++ [unlinkedRow uc], store, unlinkedRow uc) ∧
    (unlinkedRow uc).email = uc.email ∧
    (unlinkedRow uc).is_active = true ∧
    (unlinkedRow uc).is_in_graph = false ∧
    (unlinkedRow uc).neo4j_person_id = none := by
  refine ⟨?_, rfl, rfl, rfl, rfl⟩
  simp [create_user, hfree, unlinkedRow]

/-- Witness for C9 on an empty users table. -/
theorem registration_graph_failure_witness :
    create_user [] storePublic ucEve false "pid9" "t0"
      = .ok ([unlinkedRow ucEve], storePublic, unlinkedRow ucEve) :=
  (registration_graph_failure_tolerated [] storePublic ucEve "pid9" "t0" rfl).1

/-- C10: a successful person creation appends the new node (whose id is
the fresh identifier) to the graph and, when the caller's user row has
no linked person id, rewrites exactly the two link columns of that row
to point at the new node; a caller whose row already has a linked
person id gets their row back entirely unchanged. -/
theorem create_person_links_user (user : UserRec) (store : GraphStore)
    (pc : PersonCreate) (personId nowIso : String) :
    (create_person user store pc personId nowIso).1.nodes
      = store.nodes ++ [createPersonNode pc user.email personId nowIso] ∧
    (createPersonNode pc user.email personId nowIso).pid = some personId ∧
    (user.neo4j_person_id = none →
      (create_person user store pc personId nowIso).2
        = { user with neo4j_person_id := some personId, is_in_graph := true }) ∧
    (∀ x, user.neo4j_person_id = some x →
      (create_person user store pc personId nowIso).2 = user) := by
  refine ⟨rfl, rfl, ?_, ?_⟩
  · intro h
    simp [create_person, h]
  · intro x h
    simp [create_person, h]

/-- Witness for C10: an unlinked caller gets linked to the fresh node
and an already-linked caller's row is unchanged. -/
theorem create_person_links_user_witness :
    (create_person userActive storePublic pcSample "pid10" "t1").2
      = { userActive with neo4j_person_id := some "pid10", is_in_graph := true } ∧
    (create_person userLinked storePublic pcSample "pid10" "t1").2 = userLinked := by
  have h1 := create_person_links_user userActive storePublic pcSample "pid10" "t1"
  have h2 := create_person_links_user userLinked storePublic pcSample "pid10" "t1"
  exact ⟨h1.2.2.1 rfl, h2.2.2.2 "existing" rfl⟩

end Hackson

namespace Hackson

/-- C6: the claim says the neighbor lookup returns at most 10 records,
each carrying the neighbor's id, the relationship strength and the
description, traversing only RELATED_TO edges.  The inner query does
compute such a list, but the endpoint never returns it: the handler
wraps the list as a connections mapping while the route declares
response_model List[dict], and a mapping never validates as a list, so
every request — anonymous or authenticated, including the KNOWS-only
scenario whose computed list is empty — is answered with the
framework's 500 instead of the claimed record list. -/
theorem connections_endpoint_never_returns_records :
    (∀ (user? : Option UserRec) (store : GraphStore) (nid : String),
      get_node_connections_endpoint user? store nid = .error errResponseValidation) ∧
    get_node_connections_handler none storeKnows "c"
      = ConnectionsPayload.mk [] ∧
    get_node_connections_handler (some userActive) storeKnows "c"
      = ConnectionsPayload.mk [] ∧
    edgeCA ∈ get_graph_edges_rows storeKnows 0 storeKnows.edges.length := by
  refine ⟨fun _ _ _ => rfl, by decide, by decide, by decide⟩

end Hackson
